import Mathlib

/-
Verification of the span-filling renderer and detagger of pyRegurgitator
(pyreg/py2xml.py: py2xml / xml2py).  The module implementing the renderer and
the detagger is not present in the source excerpt (only its test suite is), so
every operational definition below is modelled from the specification, as its
doc comment records.  Concrete syntax trees mirror the trees the external
Python-ast adapter supplies for the test suite's inputs.
-/

/-- Modelled from the spec: a half-open range over the source text.  The spec
names the fields `start` and `end`; `end` is a Lean keyword, so the upper bound
is called `stop` here. -/
structure Span where
  start : Nat
  stop : Nat
deriving DecidableEq, Repr

/-- Modelled from the spec (the missing module is `pyreg/py2xml.py`): a node of
the adapter's syntax tree — a kind tag, ordered semantic attributes, a source
span, and ordered children.  The spec calls this `SyntaxNode`. -/
inductive AstNode where
  | mk (kind : List Char) (attrs : List (List Char × List Char)) (span : Span)
       (children : List AstNode)

/-- The span of a node. -/
def AstNode.span : AstNode → Span
  | .mk _ _ sp _ => sp

/-- The kind tag of a node (already mapped to its output element name). -/
def AstNode.kind : AstNode → List Char
  | .mk k _ _ _ => k

/-- Modelled from the spec: one event of a `MarkupDocument` — an opening tag
with attributes, a closing tag, or a verbatim slice of raw source text. -/
inductive MEvent where
  | tagOpen (name : List Char) (attrs : List (List Char × List Char))
  | tagClose (name : List Char)
  | rawText (s : List Char)
deriving DecidableEq, Repr

/-- The slice `source[a : b)` of the source text, computed on demand. -/
def srcSlice (src : List Char) (a b : Nat) : List Char :=
  (src.drop a).take (b - a)

mutual

/-- Modelled from the spec (missing module `pyreg/py2xml.py`): the span-filling
renderer.  Emits the node's open tag, then for each child the gap slice from
the running cursor to the child's start followed by the child's own rendering,
then the trailing slice up to the node's span end, then the close tag.  Any
child span that is out of order, not contained in the parent, or that would
move the cursor backward is a fatal error. -/
def render (src : List Char) : AstNode → Except String (List MEvent)
  | .mk k a sp cs =>
      match renderChildren src sp.stop cs sp.start with
      | Except.error e => Except.error e
      | Except.ok body =>
          Except.ok (MEvent.tagOpen k a :: body ++ [MEvent.tagClose k])
termination_by structural n => n

/-- Modelled from the spec: steps 3-5 of the renderer — walk the children in
order from cursor position `cur`, emitting the gap before each child and the
trailing gap up to `stop`. -/
def renderChildren (src : List Char) (stop : Nat) :
    List AstNode → Nat → Except String (List MEvent)
  | [], cur =>
      if cur ≤ stop then Except.ok [MEvent.rawText (srcSlice src cur stop)]
      else Except.error "cursor moved backward"
  | c :: rest, cur =>
      if cur ≤ c.span.start ∧ c.span.stop ≤ stop then
        match render src c, renderChildren src stop rest c.span.stop with
        | Except.ok ev, Except.ok tail =>
            Except.ok (MEvent.rawText (srcSlice src cur c.span.start) :: (ev ++ tail))
        | Except.error e, _ => Except.error e
        | _, Except.error e => Except.error e
      else Except.error "child span out of order or outside parent"
termination_by structural cs => cs

end

/-- Concatenation of the `rawText` payloads of a document, in emission order. -/
def rawConcat : List MEvent → List Char
  | [] => []
  | MEvent.rawText s :: rest => s ++ rawConcat rest
  | MEvent.tagOpen _ _ :: rest => rawConcat rest
  | MEvent.tagClose _ :: rest => rawConcat rest

/-- Modelled from the spec: detagging a markup document keeps only the
text-bearing events, concatenated in emission order; tags and attributes are
discarded. -/
def detagDoc (evs : List MEvent) : List Char := rawConcat evs

/-- The element names opened by a document, in emission order. -/
def openNames : List MEvent → List (List Char)
  | [] => []
  | MEvent.tagOpen n _ :: rest => n :: openNames rest
  | MEvent.tagClose _ :: rest => openNames rest
  | MEvent.rawText _ :: rest => openNames rest

mutual

/-- The kind tags of a tree in preorder. -/
def kindsOf : AstNode → List (List Char)
  | .mk k _ _ cs => k :: kindsList cs
termination_by structural n => n

/-- The kind tags of a forest in preorder. -/
def kindsList : List AstNode → List (List Char)
  | [] => []
  | c :: rest => kindsOf c ++ kindsList rest
termination_by structural cs => cs

end

/-- Serialization of an attribute list: a space, the name, `=`, and the quoted
value, for each attribute in order. -/
def serializeAttrs : List (List Char × List Char) → List Char
  | [] => []
  | (n, v) :: rest => ' ' :: (n ++ '=' :: '"' :: (v ++ '"' :: serializeAttrs rest))

/-- Serialization of one markup event to tagged text. -/
def serializeEvent : MEvent → List Char
  | MEvent.tagOpen n a => '<' :: (n ++ serializeAttrs a ++ ['>'])
  | MEvent.tagClose n => '<' :: '/' :: (n ++ ['>'])
  | MEvent.rawText s => s

/-- Serialization of a markup document to tagged text. -/
def serialize : List MEvent → List Char
  | [] => []
  | e :: rest => serializeEvent e ++ serialize rest

/-- Modelled from the spec: the top level renders the ordered statement
sequence between a module open tag and its close tag, with the verbatim text
before, between and after the statements emitted bare. -/
def renderModule (src : List Char) (stmts : List AstNode) : Except String (List MEvent) :=
  match renderChildren src src.length stmts 0 with
  | Except.error e => Except.error e
  | Except.ok body =>
      Except.ok (MEvent.tagOpen "Module".data [] :: body ++ [MEvent.tagClose "Module".data])

/-- Modelled from the spec (the missing `py2xml` of `pyreg/py2xml.py`, with the
file-loading wrapper and the external parser stripped away): source text plus
the adapter's statement trees to serialized markup text. -/
def py2xml (src : List Char) (stmts : List AstNode) : Except String (List Char) :=
  match renderModule src stmts with
  | Except.error e => Except.error e
  | Except.ok evs => Except.ok (serialize evs)

/-- Modelled from the spec: the synthesized span of an operator element — the
full textual gap from the end of the preceding sibling to the start of the
following sibling. -/
def synthSpan (prevStop nextStart : Nat) : Span := ⟨prevStop, nextStart⟩

mutual

/-- Well-formedness of a node exactly as the renderer checks it. -/
def wfNode : AstNode → Bool
  | .mk _ _ sp cs => wfChildren sp.stop cs sp.start
termination_by structural n => n

/-- Well-formedness of a child list under bound `stop` from cursor `cur`:
children strictly ordered, non-overlapping, contained in the parent, and the
cursor never moves backward. -/
def wfChildren (stop : Nat) : List AstNode → Nat → Bool
  | [], cur => decide (cur ≤ stop)
  | c :: rest, cur =>
      decide (cur ≤ c.span.start) && decide (c.span.stop ≤ stop) && wfNode c &&
        wfChildren stop rest c.span.stop
termination_by structural cs => cs

end

/-- Whether an `Except` computation succeeded. -/
def exceptOk : Except String (List MEvent) → Bool
  | Except.ok _ => true
  | Except.error _ => false

/-- Scan a tag body: the characters up to the closing angle bracket, and the
remainder after it; `none` if the tag is unterminated. -/
def scanTag : List Char → Option (List Char × List Char)
  | [] => none
  | c :: rest =>
      if c = '>' then some ([], rest)
      else
        match scanTag rest with
        | none => none
        | some (t, r) => some (c :: t, r)

/-- Scan raw text: the characters up to the next opening angle bracket (not
consumed), and the remainder. -/
def scanText : List Char → List Char × List Char
  | [] => ([], [])
  | c :: rest =>
      if c = '<' then ([], c :: rest)
      else
        match scanText rest with
        | (t, r) => (c :: t, r)

/-- Split a tag body into the element name (up to the first space) and the
remaining attribute text. -/
def splitName : List Char → List Char × List Char
  | [] => ([], [])
  | c :: rest =>
      if c = ' ' then ([], c :: rest)
      else
        match splitName rest with
        | (t, r) => (c :: t, r)

/-- A lexical token of the markup text: an opening tag with its attribute
text, a closing tag, or a run of raw text. -/
inductive Tok where
  | tagOpen (name : List Char) (attrText : List Char)
  | tagClose (name : List Char)
  | text (s : List Char)
deriving DecidableEq, Repr

/-- Modelled from the spec (part of the missing `xml2py`): tokenize markup text
into tag and text tokens.  Fuel bounds the recursion; each step consumes at
least one character, so the caller passes the input length. -/
def tokenize : Nat → List Char → Except String (List Tok)
  | _, [] => Except.ok []
  | 0, _ :: _ => Except.error "tokenizer out of fuel"
  | Nat.succ fuel, '<' :: rest =>
      match scanTag rest with
      | none => Except.error "unterminated tag"
      | some (body, r) =>
          match body with
          | '/' :: nm =>
              match tokenize fuel r with
              | Except.error e => Except.error e
              | Except.ok ts => Except.ok (Tok.tagClose nm :: ts)
          | _ =>
              match splitName body with
              | (nm, t) =>
                  match tokenize fuel r with
                  | Except.error e => Except.error e
                  | Except.ok ts => Except.ok (Tok.tagOpen nm t :: ts)
  | Nat.succ fuel, c :: rest =>
      match scanText (c :: rest) with
      | (t, r) =>
          match tokenize fuel r with
          | Except.error e => Except.error e
          | Except.ok ts => Except.ok (Tok.text t :: ts)

/-- A node of the generic element tree the detagger parses into: a text node,
or an element with its name, raw attribute text, and ordered content. -/
inductive XContent where
  | text (s : List Char)
  | elem (name : List Char) (attrText : List Char) (children : List XContent)

/-- Modelled from the spec: build the generic element tree from the token
stream with a stack of open elements; unbalanced or mismatched tags are a
hard error. -/
def buildDoc : List Tok → List ((List Char × List Char) × List XContent) →
    List XContent → Except String (List XContent)
  | [], [], acc => Except.ok acc.reverse
  | [], _ :: _, _ => Except.error "unclosed tag at end of input"
  | Tok.text s :: rest, stk, acc => buildDoc rest stk (XContent.text s :: acc)
  | Tok.tagOpen n t :: rest, stk, acc => buildDoc rest (((n, t), acc) :: stk) []
  | Tok.tagClose _ :: _, [], _ => Except.error "close tag without open tag"
  | Tok.tagClose n :: rest, ((m, t), parentAcc) :: stk, acc =>
      if n = m then buildDoc rest stk (XContent.elem m t acc.reverse :: parentAcc)
      else Except.error "mismatched close tag"

/-- Modelled from the spec: parse serialized markup text into the generic
element tree, tags and attributes being structurally significant only. -/
def parseXml (cs : List Char) : Except String (List XContent) :=
  match tokenize cs.length cs with
  | Except.error e => Except.error e
  | Except.ok toks => buildDoc toks [] []

mutual

/-- The contents of the text nodes under one tree node, in document order. -/
def textsOf : XContent → List (List Char)
  | .text s => [s]
  | .elem _ _ cs => textsList cs
termination_by structural n => n

/-- The contents of the text nodes of a forest, in document order. -/
def textsList : List XContent → List (List Char)
  | [] => []
  | c :: rest => textsOf c ++ textsList rest
termination_by structural cs => cs

end

mutual

/-- Preorder concatenation of the text nodes under one tree node. -/
def textConcat : XContent → List Char
  | .text s => s
  | .elem _ _ cs => textConcatList cs
termination_by structural n => n

/-- Preorder concatenation of the text nodes of a forest. -/
def textConcatList : List XContent → List Char
  | [] => []
  | c :: rest => textConcat c ++ textConcatList rest
termination_by structural cs => cs

end

/-- Concatenation of a list of character runs. -/
def joinAll : List (List Char) → List Char
  | [] => []
  | s :: rest => s ++ joinAll rest

/-- Modelled from the spec (the missing `xml2py` of `pyreg/py2xml.py`): parse
the markup into a generic element tree, then concatenate every text node's
content in document order, discarding all tag and attribute information. -/
def xml2py (cs : List Char) : Except String (List Char) :=
  match parseXml cs with
  | Except.error e => Except.error e
  | Except.ok doc => Except.ok (textConcatList doc)

/- Concrete adapter trees for the test suite's inputs. -/

/-- The `Num` leaf of the source text `6`. -/
def numTree : AstNode := .mk "Num".data [] ⟨0, 1⟩ []

/-- The `Expr` statement of the source text `6`. -/
def exprNum : AstNode := .mk "Expr".data [] ⟨0, 1⟩ [numTree]

/-- The adapter tree of `(1,2,3)`. -/
def tupleTree : AstNode :=
  .mk "Expr".data [] ⟨0, 7⟩
    [.mk "Tuple".data [("ctx".data, "Load".data)] ⟨0, 7⟩
      [.mk "Num".data [] ⟨1, 2⟩ [],
       .mk "Num".data [] ⟨3, 4⟩ [],
       .mk "Num".data [] ⟨5, 6⟩ []]]

/-- The adapter tree of `1 + 2`, the addition operator's span synthesized from
its siblings. -/
def addTree : AstNode :=
  .mk "Expr".data [] ⟨0, 5⟩
    [.mk "BinOp".data [] ⟨0, 5⟩
      [.mk "Num".data [] ⟨0, 1⟩ [],
       .mk "Add".data [] (synthSpan 1 4) [],
       .mk "Num".data [] ⟨4, 5⟩ []]]

/-- The adapter tree of `d = 5`. -/
def assignTree : AstNode :=
  .mk "Assign".data [] ⟨0, 5⟩
    [.mk "targets".data [] ⟨0, 1⟩
      [.mk "Name".data [("ctx".data, "Store".data), ("name".data, "d".data)] ⟨0, 1⟩ []],
     .mk "Num".data [] ⟨4, 5⟩ []]

/-- The adapter tree of the two-piece implicitly concatenated string literal
`"part 1" " /part 2"`. -/
def strTree : AstNode :=
  .mk "Expr".data [] ⟨0, 19⟩
    [.mk "Str".data [] ⟨0, 19⟩
      [.mk "s".data [] ⟨0, 8⟩ [],
       .mk "s".data [] ⟨9, 19⟩ []]]

/-- The adapter statement trees of the two-statement source with a comment line
between, `6` then `# my comment` then `7`, one statement per line. -/
def cmtStmts : List AstNode :=
  [.mk "Expr".data [] ⟨0, 1⟩ [.mk "Num".data [] ⟨0, 1⟩ []],
   .mk "Expr".data [] ⟨15, 16⟩ [.mk "Num".data [] ⟨15, 16⟩ []]]

/-- A malformed adapter tree: the child's span sticks out of the parent's. -/
def badTree : AstNode := .mk "X".data [] ⟨0, 2⟩ [.mk "Y".data [] ⟨1, 5⟩ []]

/-- The markup events the renderer emits for the one-statement module `6`. -/
def sixEvents : List MEvent :=
  [MEvent.tagOpen "Module".data [], MEvent.rawText [],
   MEvent.tagOpen "Expr".data [], MEvent.rawText [],
   MEvent.tagOpen "Num".data [], MEvent.rawText "6".data, MEvent.tagClose "Num".data,
   MEvent.rawText [], MEvent.tagClose "Expr".data,
   MEvent.rawText [], MEvent.tagClose "Module".data]

/-- The adapter tree of the two-piece string literal split by a
backslash-newline line continuation: `"part 1"`, two spaces, a backslash, a
newline, a space, then `" /part 2"`. -/
def strTreeCont : AstNode :=
  .mk "Expr".data [] ⟨0, 23⟩
    [.mk "Str".data [] ⟨0, 23⟩
      [.mk "s".data [] ⟨0, 8⟩ [],
       .mk "s".data [] ⟨13, 23⟩ []]]

/-- The generic element tree of the document `<a>x<b>y</b>z</a>`. -/
def docA : List XContent :=
  [.elem "a".data [] [.text "x".data, .elem "b".data [] [.text "y".data], .text "z".data]]

/-- The generic element tree of `<c><d>x</d>y<e>z</e></c>`: the same text nodes
as `docA` in the same order, under different tags and nesting. -/
def docB : List XContent :=
  [.elem "c".data []
    [.elem "d".data [] [.text "x".data], .text "y".data, .elem "e".data [] [.text "z".data]]]

/- Helper lemmas. -/

theorem rawConcat_append (xs ys : List MEvent) :
    rawConcat (xs ++ ys) = rawConcat xs ++ rawConcat ys := by
  induction xs with
  | nil => rfl
  | cons e rest ih => cases e <;> simp [rawConcat, ih]

theorem openNames_append (xs ys : List MEvent) :
    openNames (xs ++ ys) = openNames xs ++ openNames ys := by
  induction xs with
  | nil => rfl
  | cons e rest ih => cases e <;> simp [openNames, ih]

theorem serialize_append (xs ys : List MEvent) :
    serialize (xs ++ ys) = serialize xs ++ serialize ys := by
  induction xs with
  | nil => rfl
  | cons e rest ih => simp [serialize, ih]

theorem srcSlice_self (src : List Char) (a : Nat) : srcSlice src a a = [] := by
  simp [srcSlice]

theorem srcSlice_glue (src : List Char) (a b c : Nat) (hab : a ≤ b) (hbc : b ≤ c) :
    srcSlice src a b ++ srcSlice src b c = srcSlice src a c := by
  unfold srcSlice
  have h1 : c - a = (b - a) + (c - b) := by omega
  rw [h1, List.take_add, List.drop_drop]
  have h2 : a + (b - a) = b := by omega
  rw [h2]

theorem renderChildren_nil_ok (src : List Char) (stop cur : Nat) (evs : List MEvent)
    (h : renderChildren src stop [] cur = Except.ok evs) :
    cur ≤ stop ∧ evs = [MEvent.rawText (srcSlice src cur stop)] := by
  rw [renderChildren] at h
  split at h
  · next hle => injection h with h; exact ⟨hle, h.symm⟩
  · exact Except.noConfusion h

theorem renderChildren_cons_ok (src : List Char) (stop cur : Nat) (c : AstNode)
    (rest : List AstNode) (evs : List MEvent)
    (h : renderChildren src stop (c :: rest) cur = Except.ok evs) :
    cur ≤ c.span.start ∧ c.span.stop ≤ stop ∧
      ∃ ev tail, render src c = Except.ok ev ∧
        renderChildren src stop rest c.span.stop = Except.ok tail ∧
        evs = MEvent.rawText (srcSlice src cur c.span.start) :: (ev ++ tail) := by
  rw [renderChildren] at h
  split at h
  · next hg =>
    split at h
    · next ev tail hev htail =>
      injection h with h
      exact ⟨hg.1, hg.2, ev, tail, hev, htail, h.symm⟩
    · exact Except.noConfusion h
    · exact Except.noConfusion h
  · exact Except.noConfusion h

theorem render_ok_inv (src : List Char) (k : List Char)
    (a : List (List Char × List Char)) (sp : Span) (cs : List AstNode)
    (evs : List MEvent) (h : render src (.mk k a sp cs) = Except.ok evs) :
    ∃ body, renderChildren src sp.stop cs sp.start = Except.ok body ∧
      evs = MEvent.tagOpen k a :: body ++ [MEvent.tagClose k] := by
  rw [render] at h
  split at h
  · exact Except.noConfusion h
  · next body hbody => injection h with h; exact ⟨body, hbody, h.symm⟩

theorem renderChildren_nil_eq (src : List Char) (stop cur : Nat) (hle : cur ≤ stop) :
    renderChildren src stop [] cur = Except.ok [MEvent.rawText (srcSlice src cur stop)] := by
  rw [renderChildren, if_pos hle]

theorem renderChildren_cons_eq (src : List Char) (stop cur : Nat) (c : AstNode)
    (rest : List AstNode) (ev tail : List MEvent)
    (hg : cur ≤ c.span.start ∧ c.span.stop ≤ stop)
    (hev : render src c = Except.ok ev)
    (htail : renderChildren src stop rest c.span.stop = Except.ok tail) :
    renderChildren src stop (c :: rest) cur =
      Except.ok (MEvent.rawText (srcSlice src cur c.span.start) :: (ev ++ tail)) := by
  rw [renderChildren, if_pos hg, hev, htail]

theorem render_eq (src : List Char) (k : List Char)
    (a : List (List Char × List Char)) (sp : Span) (cs : List AstNode)
    (body : List MEvent)
    (hbody : renderChildren src sp.stop cs sp.start = Except.ok body) :
    render src (.mk k a sp cs) =
      Except.ok (MEvent.tagOpen k a :: body ++ [MEvent.tagClose k]) := by
  rw [render, hbody]

mutual

theorem render_raw (src : List Char) (n : AstNode) (evs : List MEvent)
    (h : render src n = Except.ok evs) :
    rawConcat evs = srcSlice src n.span.start n.span.stop ∧
      n.span.start ≤ n.span.stop := by
  match n with
  | .mk k a sp cs =>
    obtain ⟨body, hbody, hevs⟩ := render_ok_inv src k a sp cs evs h
    have ih := renderChildren_raw src sp.stop cs sp.start body hbody
    subst hevs
    refine ⟨?_, ih.2⟩
    simpa [rawConcat, rawConcat_append, AstNode.span] using ih.1
termination_by structural n

theorem renderChildren_raw (src : List Char) (stop : Nat) (cs : List AstNode)
    (cur : Nat) (evs : List MEvent)
    (h : renderChildren src stop cs cur = Except.ok evs) :
    rawConcat evs = srcSlice src cur stop ∧ cur ≤ stop := by
  match cs with
  | [] =>
    obtain ⟨hle, hevs⟩ := renderChildren_nil_ok src stop cur evs h
    subst hevs
    exact ⟨by simp [rawConcat], hle⟩
  | c :: rest =>
    obtain ⟨h1, h2, ev, tail, hev, htail, hevs⟩ :=
      renderChildren_cons_ok src stop cur c rest evs h
    have ihc := render_raw src c ev hev
    have ihr := renderChildren_raw src stop rest c.span.stop tail htail
    subst hevs
    constructor
    · rw [rawConcat, rawConcat_append, ihc.1, ihr.1,
        srcSlice_glue src c.span.start c.span.stop stop ihc.2 ihr.2,
        srcSlice_glue src cur c.span.start stop h1 (le_trans ihc.2 ihr.2)]
    · exact le_trans h1 (le_trans ihc.2 ihr.2)
termination_by structural cs

end

mutual

theorem render_names (src : List Char) (n : AstNode) (evs : List MEvent)
    (h : render src n = Except.ok evs) : openNames evs = kindsOf n := by
  match n with
  | .mk k a sp cs =>
    obtain ⟨body, hbody, hevs⟩ := render_ok_inv src k a sp cs evs h
    have ih := renderChildren_names src sp.stop cs sp.start body hbody
    subst hevs
    simp [openNames, openNames_append, kindsOf, ih]
termination_by structural n

theorem renderChildren_names (src : List Char) (stop : Nat) (cs : List AstNode)
    (cur : Nat) (evs : List MEvent)
    (h : renderChildren src stop cs cur = Except.ok evs) :
    openNames evs = kindsList cs := by
  match cs with
  | [] =>
    obtain ⟨_, hevs⟩ := renderChildren_nil_ok src stop cur evs h
    subst hevs
    rfl
  | c :: rest =>
    obtain ⟨_, _, ev, tail, hev, htail, hevs⟩ :=
      renderChildren_cons_ok src stop cur c rest evs h
    have ihc := render_names src c ev hev
    have ihr := renderChildren_names src stop rest c.span.stop tail htail
    subst hevs
    simp [openNames, openNames_append, kindsList, ihc, ihr]
termination_by structural cs

end

mutual

theorem render_isOk (src : List Char) (n : AstNode) :
    exceptOk (render src n) = wfNode n := by
  match n with
  | .mk k a sp cs =>
    rw [render, wfNode]
    have ih := renderChildren_isOk src sp.stop cs sp.start
    cases hrc : renderChildren src sp.stop cs sp.start with
    | error e => rw [hrc] at ih; simpa [exceptOk] using ih
    | ok body => rw [hrc] at ih; simpa [exceptOk] using ih
termination_by structural n

theorem renderChildren_isOk (src : List Char) (stop : Nat) (cs : List AstNode)
    (cur : Nat) :
    exceptOk (renderChildren src stop cs cur) = wfChildren stop cs cur := by
  match cs with
  | [] =>
    rw [renderChildren, wfChildren]
    split
    · next hle => simp [exceptOk, hle]
    · next hn => simp [exceptOk, hn]
  | c :: rest =>
    rw [renderChildren, wfChildren]
    have ihc := render_isOk src c
    have ihr := renderChildren_isOk src stop rest c.span.stop
    by_cases hg : cur ≤ c.span.start ∧ c.span.stop ≤ stop
    · rw [if_pos hg, ← ihc, ← ihr]
      cases hev : render src c <;>
        cases htail : renderChildren src stop rest c.span.stop <;>
          simp [exceptOk, hg.1, hg.2]
    · rw [if_neg hg]
      rcases not_and_or.mp hg with hn | hn <;> simp [exceptOk, hn]
termination_by structural cs

end

mutual

theorem textConcat_eq (n : XContent) : textConcat n = joinAll (textsOf n) := by
  match n with
  | .text s => simp [textConcat, textsOf, joinAll]
  | .elem nm t cs => rw [textConcat, textsOf, textConcatList_eq cs]
termination_by structural n

theorem textConcatList_eq (cs : List XContent) :
    textConcatList cs = joinAll (textsList cs) := by
  match cs with
  | [] => rfl
  | c :: rest =>
    rw [textConcatList, textsList, textConcat_eq c, textConcatList_eq rest]
    induction textsOf c with
    | nil => rfl
    | cons s ss ih => simp [joinAll, ih]
termination_by structural cs

end

theorem renderModule_inv (src : List Char) (stmts : List AstNode) (evs : List MEvent)
    (h : renderModule src stmts = Except.ok evs) :
    ∃ body, renderChildren src src.length stmts 0 = Except.ok body ∧
      evs = MEvent.tagOpen "Module".data [] :: body ++ [MEvent.tagClose "Module".data] := by
  rw [renderModule] at h
  split at h
  · exact Except.noConfusion h
  · next body hbody => injection h with h; exact ⟨body, hbody, h.symm⟩

theorem renderModule_rawConcat (src : List Char) (stmts : List AstNode)
    (evs : List MEvent) (h : renderModule src stmts = Except.ok evs) :
    rawConcat evs = src := by
  obtain ⟨body, hbody, hevs⟩ := renderModule_inv src stmts evs h
  have hraw := (renderChildren_raw src src.length stmts 0 body hbody).1
  subst hevs
  simp [rawConcat, rawConcat_append, hraw, srcSlice]

theorem strip_wrapper (p b s : List Char) (hp : p.length = 8) (hs : s.length = 9) :
    ((p ++ b ++ s).drop 8).take ((p ++ b ++ s).length - 17) = b := by
  have hlen : (p ++ b ++ s).length - 17 = b.length := by
    simp [List.length_append]
    omega
  rw [hlen, List.append_assoc, ← hp, List.drop_left, List.take_left]

/- Claim theorems. -/

/-- C1: for every source text and adapter statement forest the renderer
accepts, detagging the rendered markup document returns the original source
text exactly; concretely, the string-level detagger recovers `6` from the
rendered markup of `6`. -/
theorem detag_render_roundtrip :
    (∀ (src : List Char) (stmts : List AstNode) (evs : List MEvent),
        renderModule src stmts = Except.ok evs → detagDoc evs = src) ∧
    xml2py "<Module><Expr><Num>6</Num></Expr></Module>".data = Except.ok "6".data := by
  constructor
  · intro src stmts evs h
    exact renderModule_rawConcat src stmts evs h
  · rfl

/-- Witness for C1 at the source text `6`. -/
theorem detag_render_roundtrip_witness : detagDoc sixEvents = "6".data :=
  detag_render_roundtrip.1 "6".data [exprNum] sixEvents rfl

/-- C2: for every node the renderer accepts, the concatenated raw text of its
rendering — the gap before the first child, each child's rendered text, the
gaps between children, and the trailing gap — is exactly
`source[span.start : span.stop)`; consequently the concatenated raw text of a
whole rendered module is the original source text. -/
theorem gap_conservation :
    (∀ (src : List Char) (n : AstNode) (evs : List MEvent),
        render src n = Except.ok evs →
        rawConcat evs = srcSlice src n.span.start n.span.stop) ∧
    (∀ (src : List Char) (stmts : List AstNode) (evs : List MEvent),
        renderModule src stmts = Except.ok evs → rawConcat evs = src) :=
  ⟨fun src n evs h => (render_raw src n evs h).1, renderModule_rawConcat⟩

/-- Witness for C2 at the leaf `6` and the one-statement module `6`. -/
theorem gap_conservation_witness :
    rawConcat [MEvent.tagOpen "Num".data [], MEvent.rawText "6".data,
      MEvent.tagClose "Num".data] = srcSlice "6".data 0 1 ∧
    rawConcat sixEvents = "6".data :=
  ⟨gap_conservation.1 "6".data numTree _ rfl,
   gap_conservation.2 "6".data [exprNum] sixEvents rfl⟩

/-- C4: the renderer opens exactly one element per tree node, in preorder — so
punctuation with no grammar node is never wrapped in an element of its own and
can only appear as gap text; concretely, in `d = 5` the `=` with its spaces is
interstitial text between the target element and the value element, and in
`(1,2,3)` the parentheses and commas are gap text inside the tuple element. -/
theorem punctuation_gap_text :
    (∀ (src : List Char) (n : AstNode) (evs : List MEvent),
        render src n = Except.ok evs → openNames evs = kindsOf n) ∧
    (render "d = 5".data assignTree).map serialize =
      Except.ok "<Assign><targets><Name ctx=\"Store\" name=\"d\">d</Name></targets> = <Num>5</Num></Assign>".data ∧
    (render "(1,2,3)".data tupleTree).map serialize =
      Except.ok "<Expr><Tuple ctx=\"Load\">(<Num>1</Num>,<Num>2</Num>,<Num>3</Num>)</Tuple></Expr>".data :=
  ⟨render_names, rfl, rfl⟩

/-- Witness for C4 at the leaf `6`. -/
theorem punctuation_gap_text_witness :
    openNames [MEvent.tagOpen "Num".data [], MEvent.rawText "6".data,
      MEvent.tagClose "Num".data] = kindsOf numTree :=
  punctuation_gap_text.1 "6".data numTree _ rfl

/-- C7: the detagger returns the concatenation, in document order, of every
text node's content of the parsed markup, with all tag and attribute
information discarded; concretely, detagging `<a>x<b>y</b>z</a>` yields
`xyz`. -/
theorem detag_concat_texts :
    (∀ (cs : List Char) (doc : List XContent), parseXml cs = Except.ok doc →
        xml2py cs = Except.ok (joinAll (textsList doc))) ∧
    xml2py "<a>x<b>y</b>z</a>".data = Except.ok "xyz".data := by
  constructor
  · intro cs doc h
    simp [xml2py, h, textConcatList_eq]
  · rfl

/-- Witness for C7 at the document `<a>x<b>y</b>z</a>`. -/
theorem detag_concat_texts_witness :
    xml2py "<a>x<b>y</b>z</a>".data = Except.ok (joinAll (textsList docA)) :=
  detag_concat_texts.1 "<a>x<b>y</b>z</a>".data docA rfl

/-- C8: two well-formed markup documents whose text-node contents agree in
document order detag to the same output, whatever their tag names, nesting or
attribute values. -/
theorem detag_structure_insensitive :
    ∀ (cs1 cs2 : List Char) (d1 d2 : List XContent),
      parseXml cs1 = Except.ok d1 → parseXml cs2 = Except.ok d2 →
      textsList d1 = textsList d2 → xml2py cs1 = xml2py cs2 := by
  intro cs1 cs2 d1 d2 h1 h2 ht
  simp [xml2py, h1, h2, textConcatList_eq, ht]

/-- Witness for C8: `<a>x<b>y</b>z</a>` and `<c><d>x</d>y<e>z</e></c>` have the
same text nodes in the same order and detag identically. -/
theorem detag_structure_insensitive_witness :
    xml2py "<a>x<b>y</b>z</a>".data = xml2py "<c><d>x</d>y<e>z</e></c>".data :=
  detag_structure_insensitive "<a>x<b>y</b>z</a>".data "<c><d>x</d>y<e>z</e></c>".data
    docA docB rfl rfl rfl

/-- C9: on any tree violating the renderer's span discipline — a child span not
contained in its parent, children out of order or overlapping, or a cursor
forced backward — the renderer reports a fatal error instead of producing
output. -/
theorem malformed_tree_fatal :
    ∀ (src : List Char) (n : AstNode), wfNode n = false →
      ∃ msg, render src n = Except.error msg := by
  intro src n h
  have hk := render_isOk src n
  rw [h] at hk
  cases hr : render src n with
  | error e => exact ⟨e, rfl⟩
  | ok evs => rw [hr] at hk; simp [exceptOk] at hk

/-- Witness for C9 at a tree whose child span sticks out of its parent's. -/
theorem malformed_tree_fatal_witness :
    wfNode badTree = false ∧ ∃ msg, render "abcde".data badTree = Except.error msg :=
  ⟨rfl, malformed_tree_fatal "abcde".data badTree rfl⟩

/-- C10: every output of the module renderer is the 8-character tag `<Module>`,
then the rendered statement sequence, then the 9-character tag `</Module>`, so
stripping exactly 8 leading and 9 trailing characters yields the body. -/
theorem module_wrapper :
    ∀ (src : List Char) (stmts : List AstNode) (out : List Char),
      py2xml src stmts = Except.ok out →
      ∃ body, out = "<Module>".data ++ body ++ "</Module>".data ∧
        (out.drop 8).take (out.length - 17) = body := by
  intro src stmts out h
  rw [py2xml] at h
  split at h
  · exact Except.noConfusion h
  · next evs hevs =>
    injection h with h
    obtain ⟨body, hbody, hevs2⟩ := renderModule_inv src stmts evs hevs
    subst hevs2
    have hopen : serializeEvent (MEvent.tagOpen "Module".data []) = "<Module>".data := rfl
    have hclose : serialize [MEvent.tagClose "Module".data] = "</Module>".data := rfl
    have hser : serialize (MEvent.tagOpen "Module".data [] ::
        body ++ [MEvent.tagClose "Module".data]) =
        "<Module>".data ++ serialize body ++ "</Module>".data := by
      show serializeEvent (MEvent.tagOpen "Module".data []) ++
          serialize (body ++ [MEvent.tagClose "Module".data]) = _
      rw [serialize_append, hopen, hclose, List.append_assoc]
    refine ⟨serialize body, ?_, ?_⟩
    · rw [← h, hser]
    · rw [← h, hser]
      exact strip_wrapper "<Module>".data (serialize body) "</Module>".data rfl rfl

/-- Witness for C10 at the one-statement module `6`. -/
theorem module_wrapper_witness :
    ∃ body, "<Module><Expr><Num>6</Num></Expr></Module>".data =
        "<Module>".data ++ body ++ "</Module>".data ∧
      ("<Module><Expr><Num>6</Num></Expr></Module>".data.drop 8).take
        ("<Module><Expr><Num>6</Num></Expr></Module>".data.length - 17) = body :=
  module_wrapper "6".data [exprNum] "<Module><Expr><Num>6</Num></Expr></Module>".data rfl

theorem render_leaf_eq (src : List Char) (k : List Char)
    (a : List (List Char × List Char)) (sp : Span) (hle : sp.start ≤ sp.stop) :
    render src (.mk k a sp []) =
      Except.ok [MEvent.tagOpen k a, MEvent.rawText (srcSlice src sp.start sp.stop),
        MEvent.tagClose k] := by
  simpa using render_eq src k a sp [] _ (renderChildren_nil_eq src sp.stop sp.start hle)

/-- C3: an operator node carrying the synthesized span — from the end of the
preceding sibling to the start of the following sibling — renders as an
element whose text content is exactly the full gap between the two operands,
with nothing of that gap left outside it; concretely, rendering `1 + 2` puts
exactly ` + ` inside the addition element. -/
theorem synth_op_gap :
    (∀ (src : List Char) (k opName : List Char)
        (a oa : List (List Char × List Char)) (sp : Span) (l r : AstNode)
        (el er : List MEvent),
        sp.start ≤ l.span.start →
        render src l = Except.ok el →
        l.span.stop ≤ r.span.start →
        render src r = Except.ok er →
        r.span.stop ≤ sp.stop →
        render src (AstNode.mk k a sp
            [l, AstNode.mk opName oa (synthSpan l.span.stop r.span.start) [], r]) =
          Except.ok (MEvent.tagOpen k a ::
            MEvent.rawText (srcSlice src sp.start l.span.start) :: (el ++
            (MEvent.rawText [] :: MEvent.tagOpen opName oa ::
              MEvent.rawText (srcSlice src l.span.stop r.span.start) ::
              MEvent.tagClose opName :: MEvent.rawText [] :: (er ++
            (MEvent.rawText (srcSlice src r.span.stop sp.stop) ::
              [MEvent.tagClose k])))))) ∧
    (render "1 + 2".data addTree).map serialize =
      Except.ok "<Expr><BinOp><Num>1</Num><Add> + </Add><Num>2</Num></BinOp></Expr>".data := by
  constructor
  · intro src k opName a oa sp l r el er h1 hel h2 her h3
    have hl := (render_raw src l el hel).2
    have hr := (render_raw src r er her).2
    have hstop : l.span.stop ≤ sp.stop := le_trans h2 (le_trans hr h3)
    have hnil : renderChildren src sp.stop [] r.span.stop =
        Except.ok [MEvent.rawText (srcSlice src r.span.stop sp.stop)] :=
      renderChildren_nil_eq src sp.stop r.span.stop h3
    have hstepr : renderChildren src sp.stop [r] r.span.start =
        Except.ok (MEvent.rawText (srcSlice src r.span.start r.span.start) ::
          (er ++ [MEvent.rawText (srcSlice src r.span.stop sp.stop)])) :=
      renderChildren_cons_eq src sp.stop r.span.start r [] er _
        ⟨le_refl _, h3⟩ her hnil
    have hopev : render src (AstNode.mk opName oa
        (synthSpan l.span.stop r.span.start) []) =
        Except.ok [MEvent.tagOpen opName oa,
          MEvent.rawText (srcSlice src l.span.stop r.span.start),
          MEvent.tagClose opName] :=
      render_leaf_eq src opName oa (synthSpan l.span.stop r.span.start) h2
    have hstepop : renderChildren src sp.stop
        [AstNode.mk opName oa (synthSpan l.span.stop r.span.start) [], r]
        l.span.stop =
        Except.ok (MEvent.rawText (srcSlice src l.span.stop l.span.stop) ::
          ([MEvent.tagOpen opName oa,
            MEvent.rawText (srcSlice src l.span.stop r.span.start),
            MEvent.tagClose opName] ++
           (MEvent.rawText (srcSlice src r.span.start r.span.start) ::
            (er ++ [MEvent.rawText (srcSlice src r.span.stop sp.stop)])))) :=
      renderChildren_cons_eq src sp.stop l.span.stop _ [r] _ _
        ⟨le_refl _, le_trans hr h3⟩ hopev hstepr
    have hstepl : renderChildren src sp.stop
        [l, AstNode.mk opName oa (synthSpan l.span.stop r.span.start) [], r]
        sp.start =
        Except.ok (MEvent.rawText (srcSlice src sp.start l.span.start) ::
          (el ++ (MEvent.rawText (srcSlice src l.span.stop l.span.stop) ::
            ([MEvent.tagOpen opName oa,
              MEvent.rawText (srcSlice src l.span.stop r.span.start),
              MEvent.tagClose opName] ++
             (MEvent.rawText (srcSlice src r.span.start r.span.start) ::
              (er ++ [MEvent.rawText (srcSlice src r.span.stop sp.stop)])))))) :=
      renderChildren_cons_eq src sp.stop sp.start l _ el _ ⟨h1, hstop⟩ hel hstepop
    have hfin := render_eq src k a sp _ _ hstepl
    rw [hfin]
    simp [srcSlice_self]
  · rfl

/-- Witness for C3: an addition node over `1 + 2` with the operator span
synthesized from its siblings renders the operator element with content
` + `, the whole inter-operand gap. -/
theorem synth_op_gap_witness :
    render "1 + 2".data (AstNode.mk "BinOp".data [] ⟨0, 5⟩
        [AstNode.mk "Num".data [] ⟨0, 1⟩ [],
         AstNode.mk "Add".data []
           (synthSpan (AstNode.mk "Num".data [] ⟨0, 1⟩ [] : AstNode).span.stop
             (AstNode.mk "Num".data [] ⟨4, 5⟩ [] : AstNode).span.start) [],
         AstNode.mk "Num".data [] ⟨4, 5⟩ []]) =
      Except.ok (MEvent.tagOpen "BinOp".data [] ::
        MEvent.rawText (srcSlice "1 + 2".data 0 0) ::
        ([MEvent.tagOpen "Num".data [], MEvent.rawText (srcSlice "1 + 2".data 0 1),
          MEvent.tagClose "Num".data] ++
        (MEvent.rawText [] :: MEvent.tagOpen "Add".data [] ::
          MEvent.rawText (srcSlice "1 + 2".data 1 4) ::
          MEvent.tagClose "Add".data :: MEvent.rawText [] ::
          ([MEvent.tagOpen "Num".data [], MEvent.rawText (srcSlice "1 + 2".data 4 5),
            MEvent.tagClose "Num".data] ++
        (MEvent.rawText (srcSlice "1 + 2".data 5 5) ::
          [MEvent.tagClose "BinOp".data]))))) :=
  synth_op_gap.1 "1 + 2".data "BinOp".data "Add".data [] [] ⟨0, 5⟩
    (AstNode.mk "Num".data [] ⟨0, 1⟩ []) (AstNode.mk "Num".data [] ⟨4, 5⟩ [])
    _ _ (by decide) (render_leaf_eq _ _ _ _ (by decide)) (by decide)
    (render_leaf_eq _ _ _ _ (by decide)) (by decide)

/-- C5: a two-piece string literal node renders as one leaf element per piece,
in source order, with the inter-piece gap emitted verbatim as interstitial
text between the two elements — never dropped and never inside either piece;
concretely for the adjacent pieces of `"part 1" " /part 2"` and for pieces
separated by a backslash-newline line continuation. -/
theorem literal_pieces :
    (∀ (src : List Char) (sk : List Char) (sa : List (List Char × List Char))
        (a1 b1 a2 b2 : Nat), a1 ≤ b1 → b1 ≤ a2 → a2 ≤ b2 →
        render src (AstNode.mk sk sa ⟨a1, b2⟩
            [AstNode.mk "s".data [] ⟨a1, b1⟩ [],
             AstNode.mk "s".data [] ⟨a2, b2⟩ []]) =
          Except.ok [MEvent.tagOpen sk sa, MEvent.rawText [],
            MEvent.tagOpen "s".data [], MEvent.rawText (srcSlice src a1 b1),
            MEvent.tagClose "s".data,
            MEvent.rawText (srcSlice src b1 a2),
            MEvent.tagOpen "s".data [], MEvent.rawText (srcSlice src a2 b2),
            MEvent.tagClose "s".data,
            MEvent.rawText [], MEvent.tagClose sk]) ∧
    ((render "\"part 1\" \" /part 2\"".data strTree).map serialize =
      Except.ok "<Expr><Str><s>\"part 1\"</s> <s>\" /part 2\"</s></Str></Expr>".data) ∧
    ((render "\"part 1\"  \\\n \" /part 2\"".data strTreeCont).map serialize =
      Except.ok "<Expr><Str><s>\"part 1\"</s>  \\\n <s>\" /part 2\"</s></Str></Expr>".data) := by
  refine ⟨?_, rfl, rfl⟩
  intro src sk sa a1 b1 a2 b2 h1 h2 h3
  have hp1 : render src (AstNode.mk "s".data [] ⟨a1, b1⟩ []) =
      Except.ok [MEvent.tagOpen "s".data [], MEvent.rawText (srcSlice src a1 b1),
        MEvent.tagClose "s".data] :=
    render_leaf_eq src "s".data [] ⟨a1, b1⟩ h1
  have hp2 : render src (AstNode.mk "s".data [] ⟨a2, b2⟩ []) =
      Except.ok [MEvent.tagOpen "s".data [], MEvent.rawText (srcSlice src a2 b2),
        MEvent.tagClose "s".data] :=
    render_leaf_eq src "s".data [] ⟨a2, b2⟩ h3
  have hnil : renderChildren src b2 [] b2 =
      Except.ok [MEvent.rawText (srcSlice src b2 b2)] :=
    renderChildren_nil_eq src b2 b2 (le_refl b2)
  have hstep2 : renderChildren src b2 [AstNode.mk "s".data [] ⟨a2, b2⟩ []] b1 =
      Except.ok (MEvent.rawText (srcSlice src b1 a2) ::
        ([MEvent.tagOpen "s".data [], MEvent.rawText (srcSlice src a2 b2),
          MEvent.tagClose "s".data] ++ [MEvent.rawText (srcSlice src b2 b2)])) :=
    renderChildren_cons_eq src b2 b1 _ [] _ _ ⟨h2, le_refl b2⟩ hp2 hnil
  have hstep1 : renderChildren src b2
      [AstNode.mk "s".data [] ⟨a1, b1⟩ [], AstNode.mk "s".data [] ⟨a2, b2⟩ []] a1 =
      Except.ok (MEvent.rawText (srcSlice src a1 a1) ::
        ([MEvent.tagOpen "s".data [], MEvent.rawText (srcSlice src a1 b1),
          MEvent.tagClose "s".data] ++
         (MEvent.rawText (srcSlice src b1 a2) ::
          ([MEvent.tagOpen "s".data [], MEvent.rawText (srcSlice src a2 b2),
            MEvent.tagClose "s".data] ++ [MEvent.rawText (srcSlice src b2 b2)])))) :=
    renderChildren_cons_eq src b2 a1 _ _ _ _ ⟨le_refl a1, le_trans h2 h3⟩ hp1 hstep2
  have hfin := render_eq src sk sa ⟨a1, b2⟩ _ _ hstep1
  rw [hfin]
  simp [srcSlice_self]

/-- Witness for C5 at the pieces of the source `"part 1" " /part 2"`. -/
theorem literal_pieces_witness :
    render "\"part 1\" \" /part 2\"".data
        (AstNode.mk "Str".data [] ⟨0, 19⟩
          [AstNode.mk "s".data [] ⟨0, 8⟩ [], AstNode.mk "s".data [] ⟨9, 19⟩ []]) =
      Except.ok [MEvent.tagOpen "Str".data [], MEvent.rawText [],
        MEvent.tagOpen "s".data [],
        MEvent.rawText (srcSlice "\"part 1\" \" /part 2\"".data 0 8),
        MEvent.tagClose "s".data,
        MEvent.rawText (srcSlice "\"part 1\" \" /part 2\"".data 8 9),
        MEvent.tagOpen "s".data [],
        MEvent.rawText (srcSlice "\"part 1\" \" /part 2\"".data 9 19),
        MEvent.tagClose "s".data,
        MEvent.rawText [], MEvent.tagClose "Str".data] :=
  literal_pieces.1 "\"part 1\" \" /part 2\"".data "Str".data [] 0 8 9 19
    (by decide) (by decide) (by decide)

/-- C6: at the top level the exact verbatim text before the first statement,
between consecutive statements, and after the last statement is emitted as a
bare raw-text event directly under the module — not inside any statement
element; concretely, rendering `6`, a comment line, then `7` leaves the
comment line as bare text between the two statement elements. -/
theorem stmt_sequence_verbatim :
    (∀ (src : List Char) (s1 s2 : AstNode) (e1 e2 : List MEvent),
        render src s1 = Except.ok e1 →
        render src s2 = Except.ok e2 →
        s1.span.stop ≤ s2.span.start →
        s2.span.stop ≤ src.length →
        renderModule src [s1, s2] =
          Except.ok (MEvent.tagOpen "Module".data [] ::
            MEvent.rawText (srcSlice src 0 s1.span.start) :: (e1 ++
            (MEvent.rawText (srcSlice src s1.span.stop s2.span.start) :: (e2 ++
            (MEvent.rawText (srcSlice src s2.span.stop src.length) ::
              [MEvent.tagClose "Module".data])))))) ∧
    py2xml "6\n# my comment\n7".data cmtStmts =
      Except.ok "<Module><Expr><Num>6</Num></Expr>\n# my comment\n<Expr><Num>7</Num></Expr></Module>".data := by
  refine ⟨?_, rfl⟩
  intro src s1 s2 e1 e2 he1 he2 h12 h2len
  have hr2 := (render_raw src s2 e2 he2).2
  have hnil : renderChildren src src.length [] s2.span.stop =
      Except.ok [MEvent.rawText (srcSlice src s2.span.stop src.length)] :=
    renderChildren_nil_eq src src.length s2.span.stop h2len
  have hstep2 : renderChildren src src.length [s2] s1.span.stop =
      Except.ok (MEvent.rawText (srcSlice src s1.span.stop s2.span.start) ::
        (e2 ++ [MEvent.rawText (srcSlice src s2.span.stop src.length)])) :=
    renderChildren_cons_eq src src.length s1.span.stop s2 [] e2 _
      ⟨h12, h2len⟩ he2 hnil
  have hstep1 : renderChildren src src.length [s1, s2] 0 =
      Except.ok (MEvent.rawText (srcSlice src 0 s1.span.start) ::
        (e1 ++ (MEvent.rawText (srcSlice src s1.span.stop s2.span.start) ::
          (e2 ++ [MEvent.rawText (srcSlice src s2.span.stop src.length)])))) :=
    renderChildren_cons_eq src src.length 0 s1 [s2] e1 _
      ⟨Nat.zero_le _, le_trans h12 (le_trans hr2 h2len)⟩ he1 hstep2
  rw [renderModule, hstep1]
  simp

/-- Witness for C6 at the two statements `6` and `7` with a comment line
between them. -/
theorem stmt_sequence_verbatim_witness :
    renderModule "6\n# my comment\n7".data
        [AstNode.mk "Expr".data [] ⟨0, 1⟩ [AstNode.mk "Num".data [] ⟨0, 1⟩ []],
         AstNode.mk "Expr".data [] ⟨15, 16⟩ [AstNode.mk "Num".data [] ⟨15, 16⟩ []]] =
      Except.ok (MEvent.tagOpen "Module".data [] ::
        MEvent.rawText (srcSlice "6\n# my comment\n7".data 0 0) ::
        ([MEvent.tagOpen "Expr".data [], MEvent.rawText [],
          MEvent.tagOpen "Num".data [],
          MEvent.rawText (srcSlice "6\n# my comment\n7".data 0 1),
          MEvent.tagClose "Num".data, MEvent.rawText [],
          MEvent.tagClose "Expr".data] ++
        (MEvent.rawText (srcSlice "6\n# my comment\n7".data 1 15) ::
        ([MEvent.tagOpen "Expr".data [], MEvent.rawText [],
          MEvent.tagOpen "Num".data [],
          MEvent.rawText (srcSlice "6\n# my comment\n7".data 15 16),
          MEvent.tagClose "Num".data, MEvent.rawText [],
          MEvent.tagClose "Expr".data] ++
        (MEvent.rawText (srcSlice "6\n# my comment\n7".data 16 16) ::
          [MEvent.tagClose "Module".data]))))) :=
  stmt_sequence_verbatim.1 "6\n# my comment\n7".data
    (AstNode.mk "Expr".data [] ⟨0, 1⟩ [AstNode.mk "Num".data [] ⟨0, 1⟩ []])
    (AstNode.mk "Expr".data [] ⟨15, 16⟩ [AstNode.mk "Num".data [] ⟨15, 16⟩ []])
    _ _ rfl rfl (by decide) (by decide)
